import Mathlib

/-!
Shallow embedding of `src/generator.py` (the Mega-Sena game generator).

Modelling conventions:
* Python `int` is `Int` (Python `%` is `Int.emod`, Python `//` is floor
  division, i.e. `Int.fdiv`); Python `float` is modelled as exact `ℚ`.
* `random.Random(seed)` is modelled as an abstract deterministic stream of
  natural numbers (`RNGState`): `bits` is the stream and `pos` the read head.
  `random.sample(population, k)` is modelled by `sampleAux`, which draws `k`
  distinct positions without replacement (the only facts the code relies on:
  the result is a deterministic function of the state, has `min k len`
  elements, is duplicate-free for duplicate-free input and is drawn from the
  population).  `random.shuffle` is a full-length sample.
* The Python `set` of candidates (`candidates = set(...)`, later
  `list(candidates)`) is modelled as an insertion-ordered duplicate-free list:
  membership and size coincide with the Python set; only the enumeration
  order differs, and no claim below depends on a particular enumeration order.
* `collections.Counter` values are modelled by total functions with default 0
  (for `exposure`) and by count lists keyed on the distinct keys present
  (for decade / last-digit counts).
-/

/-- Deterministic pseudo-random source: an abstract stream of naturals with a
read position.  Stands for a `random.Random(seed)` instance. -/
structure RNGState where
  bits : Nat → Nat
  pos : Nat

def RNGState.advance (s : RNGState) : RNGState :=
  ⟨s.bits, s.pos + 1⟩

/-- `random.sample(l, k)`: draw `k` elements of `l` without replacement,
consuming one stream value per drawn element. -/
def sampleAux {α : Type} : Nat → RNGState → List α → List α × RNGState
  | 0, rng, _ => ([], rng)
  | _ + 1, rng, [] => ([], rng)
  | k + 1, rng, a :: l =>
    let n := (a :: l).length
    let i := rng.bits rng.pos % n
    let x := (a :: l).getD i a
    let rest := (a :: l).eraseIdx i
    let r := sampleAux k rng.advance rest
    (x :: r.1, r.2)

/-- `NUMBERS = list(range(1, 61))`. -/
def NUMBERS : List Int :=
  (List.range 60).map (fun i => (i : Int) + 1)

/-- `_decenio_(n) = (n-1)//10 + 1` (Python floor division). -/
def decenio_ (n : Int) : Int :=
  (n - 1).fdiv 10 + 1

/-- Canonical sorting, `tuple(sorted(t))`. -/
def sortInt (l : List Int) : List Int :=
  List.insertionSort (· ≤ ·) l

/-- Inner loop of `_has_long_sequence`: `a` is the previous element, `run` the
length of the current run of consecutive values ending at `a`. -/
def hasLongSequenceAux (L : Nat) : Int → Nat → List Int → Bool
  | _, _, [] => false
  | a, run, b :: rest =>
    if b = a + 1 then
      if L ≤ run + 1 then true else hasLongSequenceAux L b (run + 1) rest
    else hasLongSequenceAux L b 1 rest

/-- `_has_long_sequence(ticket, L)`. -/
def hasLongSequence (ticket : List Int) (L : Nat) : Bool :=
  match sortInt ticket with
  | [] => false
  | a :: rest => hasLongSequenceAux L a 1 rest

/-- The generator state after `GameGenerator.__init__`: the seeded rng plus
every resolved configuration attribute. -/
structure GameGenerator where
  rng : RNGState
  SUM_BAND : Option (Int × Int)
  PROFILE : String
  BUCKET_WEIGHT : ℚ
  SUM_TARGET : ℚ
  SUM_WEIGHT : ℚ
  BUCKET_TARGET : ℚ × ℚ × ℚ
  MIN_OVER_31 : Int
  MIN_HIGH : Int
  ODD_RANGE : Int × Int
  MAX_SAME_DECENIO_ : Int
  MAX_SAME_ENDING : Int
  MAX_MULT_5 : Int
  MAX_EXPOSURE : Int
  POP_SIZE : Nat
  CANDIDATES_PER_PICK : Nat
  DISPLAY_SHUFFLE : Bool

/-- `GameGenerator.__init__`.  `rng0` stands for `random.Random(seed)`;
the remaining parameters are the constructor arguments in source order
(the optional ones as `Option`, `None` = not supplied). -/
def mkGen (rng0 : RNGState) (sum_band : Option (Int × Int)) (profile : String)
    (sum_target sum_weight : Option ℚ) (bucket_target : Option (ℚ × ℚ × ℚ))
    (bucket_weight : ℚ) (min_over31 min_high : Int) (odd_range : Int × Int)
    (max_same_decenio_ max_same_ending max_mult5 max_exposure : Int)
    (pop_size candidates_per_pick : Nat) (display_shuffle : Bool) :
    GameGenerator :=
  let prof := profile.toLower.trim
  let defaults : ℚ × ℚ × (ℚ × ℚ × ℚ) × Int :=
    if prof = "misto" then (183, 1/10, (1/3, 1/3, 1/3), 1)
    else if prof = "alto" then (260, 1/20, (3/20, 3/10, 11/20), 3)
    else (145, 3/20, (33/100, 33/100, 34/100), 1)
  { rng := rng0
    SUM_BAND := sum_band
    PROFILE := prof
    BUCKET_WEIGHT := bucket_weight
    SUM_TARGET := sum_target.getD defaults.1
    SUM_WEIGHT := sum_weight.getD defaults.2.1
    BUCKET_TARGET := bucket_target.getD defaults.2.2.1
    MIN_OVER_31 := min_over31
    MIN_HIGH := max min_high defaults.2.2.2
    ODD_RANGE := odd_range
    MAX_SAME_DECENIO_ := max_same_decenio_
    MAX_SAME_ENDING := max_same_ending
    MAX_MULT_5 := max_mult5
    MAX_EXPOSURE := max_exposure
    POP_SIZE := pop_size
    CANDIDATES_PER_PICK := candidates_per_pick
    DISPLAY_SHUFFLE := display_shuffle }

/-- `Counter(x % 10 for x in t).values()`: the count of each distinct
last-digit class present in `t`. -/
def endCountsList (t : List Int) : List Nat :=
  ((t.map (fun x => x % 10)).dedup).map (fun d => t.countP (fun x => x % 10 == d))

/-- `Counter(_decenio_(x) for x in t).values()`. -/
def decCountsList (t : List Int) : List Nat :=
  ((t.map (fun x => decenio_ x)).dedup).map (fun d => t.countP (fun x => decenio_ x == d))

/-- `GameGenerator._ticket_ok`. -/
def ticketOk (g : GameGenerator) (t0 : List Int) : Bool :=
  let t := sortInt t0
  let s := t.sum
  let band_ok : Bool :=
    match g.SUM_BAND with
    | none => true
    | some band => band.1 ≤ s && s ≤ band.2
  let over31_ok : Bool := !(decide ((t.countP (fun x => 31 < x) : Int) < g.MIN_OVER_31))
  let high_ok : Bool :=
    !(decide (0 < g.MIN_HIGH) && decide ((t.countP (fun x => 41 ≤ x) : Int) < g.MIN_HIGH))
  let odds : Int := (t.countP (fun x => x % 2 == 1) : Int)
  let odd_ok : Bool := g.ODD_RANGE.1 ≤ odds && odds ≤ g.ODD_RANGE.2
  let dec_ok : Bool := !((decCountsList t).any (fun c => g.MAX_SAME_DECENIO_ < (c : Int)))
  let end_ok : Bool := !((endCountsList t).any (fun c => g.MAX_SAME_ENDING < (c : Int)))
  let m5_ok : Bool := !(decide (g.MAX_MULT_5 < (t.countP (fun x => x % 5 == 0) : Int)))
  let seq_ok : Bool := !(hasLongSequence t 3)
  band_ok && over31_ok && high_ok && odd_ok && dec_ok && end_ok && m5_ok && seq_ok

/-- `GameGenerator._anti_popularity_penalty`. -/
def antiPopularityPenalty (g : GameGenerator) (t0 : List Int) : ℚ :=
  let t := sortInt t0
  let penA : ℚ :=
    if 0 < g.SUM_WEIGHT then g.SUM_WEIGHT * (|(t.sum : ℚ) - g.SUM_TARGET| / 60) else 0
  let b1 := t.countP (fun x => x ≤ 20)
  let b2 := t.countP (fun x => 21 ≤ x && x ≤ 40)
  let b3 : Int := 6 - (b1 : Int) - (b2 : Int)
  let bucketDist : ℚ :=
    |(b1 : ℚ) / 6 - g.BUCKET_TARGET.1| + |(b2 : ℚ) / 6 - g.BUCKET_TARGET.2.1|
      + |(b3 : ℚ) / 6 - g.BUCKET_TARGET.2.2|
  let penEnd : ℚ := (((endCountsList t).map (fun c => ((c - 1 : Nat) : ℚ))).sum) * (3/10)
  let penDec : ℚ := (((decCountsList t).map (fun c => ((c - 2 : Nat) : ℚ))).sum) * (2/5)
  let penM5 : ℚ := ((t.countP (fun x => x % 5 == 0) - 2 : Nat) : ℚ) * (1/2)
  penA + g.BUCKET_WEIGHT * bucketDist + penEnd + penDec + penM5

/-- `GameGenerator._pairs_of` (`{tuple(sorted(p)) for p in combinations(t, 2)}`). -/
def pairsOf (t : List Int) : List (List Int) :=
  (List.sublistsLen 2 (sortInt t)).dedup

/-- `GameGenerator._triples_of`. -/
def triplesOf (t : List Int) : List (List Int) :=
  (List.sublistsLen 3 (sortInt t)).dedup

/-- `GameGenerator._jaccard`. -/
def jaccard (a b : List Int) : ℚ :=
  let inter := (a.toFinset ∩ b.toFinset).card
  let union := (a.toFinset ∪ b.toFinset).card
  if union = 0 then 0 else (inter : ℚ) / (union : ℚ)

/-- `random.shuffle` on a ticket (used by `_shuffle_for_display`): modelled as
a full-length sample, which is a permutation of the input. -/
def shuffleList (rng : RNGState) (t : List Int) : List Int × RNGState :=
  sampleAux t.length rng t

/-- The display pass `[self._shuffle_for_display(t) for t in selected]`,
threading the rng left to right. -/
def shuffleAll (rng : RNGState) : List (List Int) → List (List Int) × RNGState
  | [] => ([], rng)
  | t :: ts =>
    let r1 := shuffleList rng t
    let r2 := shuffleAll r1.2 ts
    (r1.1 :: r2.1, r2.2)

/-- Step 1 of `generate` (candidate-pool builder).  `fuel` is the remaining
attempt budget, `tries` the attempts made so far; the result also reports the
total number of sampling attempts. -/
def buildPoolAux (g : GameGenerator) :
    Nat → List (List Int) → RNGState → Nat → List (List Int) × RNGState × Nat
  | 0, acc, rng, tries => (acc, rng, tries)
  | fuel + 1, acc, rng, tries =>
    if acc.length < g.POP_SIZE then
      let r := sampleAux 6 rng NUMBERS
      let t := sortInt r.1
      let acc2 := if ticketOk g t && !(decide (t ∈ acc)) then acc ++ [t] else acc
      buildPoolAux g fuel acc2 r.2 (tries + 1)
    else (acc, rng, tries)

/-- `candidates` after step 1 of `generate`, plus the rng state and the number
of sampling attempts made (`tries`). -/
def buildPool (g : GameGenerator) : List (List Int) × RNGState × Nat :=
  buildPoolAux g (g.POP_SIZE * 50) [] g.rng 0

/-- Mutable state of the greedy selection in step 2 of `generate`.
`usedFallback` is ghost instrumentation: it records whether any pick came
from the second (exposure-ignoring) pass; it influences nothing. -/
structure SelState where
  selected : List (List Int)
  coveredPairs : List (List Int)
  coveredTriples : List (List Int)
  exposure : Int → Nat
  rng : RNGState
  usedFallback : Bool

/-- `feasible(t)`: no member of `t` has reached the local exposure cap. -/
def feasibleB (e : Int → Nat) (localMax : Int) (t : List Int) : Bool :=
  t.all (fun x => (e x : Int) < localMax)

/-- `score(t)` of the main selection loop. -/
def scoreOf (g : GameGenerator) (localMax : Int) (st : SelState) (t : List Int) : ℚ :=
  let pNew : ℚ := ((pairsOf t).countP (fun p => !(decide (p ∈ st.coveredPairs))) : ℚ)
  let trNew : ℚ := ((triplesOf t).countP (fun p => !(decide (p ∈ st.coveredTriples))) : ℚ)
  let overlapPen : ℚ := (st.selected.map (fun s => jaccard t s)).sum
  let apPen : ℚ := antiPopularityPenalty g t
  let expPen : ℚ :=
    ((t.map (fun x => (st.exposure x : ℚ) / ((max 1 localMax : Int) : ℚ))).sum) * (3/10)
  3 * pNew + (3/2) * trNew - (5/2) * overlapPen - (9/5) * apPen - expPen

/-- The simplified score of the top-up loop (no exposure term). -/
def topScoreOf (g : GameGenerator) (st : SelState) (t : List Int) : ℚ :=
  let pNew : ℚ := ((pairsOf t).countP (fun p => !(decide (p ∈ st.coveredPairs))) : ℚ)
  let trNew : ℚ := ((triplesOf t).countP (fun p => !(decide (p ∈ st.coveredTriples))) : ℚ)
  let overlapPen : ℚ := (st.selected.map (fun s => jaccard t s)).sum
  3 * pNew + (3/2) * trNew - (5/2) * overlapPen - (9/5) * antiPopularityPenalty g t

/-- `best, best_score = None, -1e18` then the scan `for t in pool: ...`,
keeping a candidate only if it passes `pred` and strictly beats the best. -/
def pickBest (f : List Int → ℚ) (pred : List Int → Bool) (pool : List (List Int)) :
    Option (List Int) × ℚ :=
  pool.foldl
    (fun acc t => if pred t then (if acc.2 < f t then (some t, f t) else acc) else acc)
    (none, -(10 ^ 18 : ℚ))

/-- Bookkeeping after a pick in the main loop: append, extend coverage,
bump exposure of the 6 members, record whether the fallback pass chose it. -/
def pushPick (st : SelState) (b : List Int) (fb : Bool) : SelState :=
  { selected := st.selected ++ [b]
    coveredPairs := st.coveredPairs ++ (pairsOf b).filter (fun p => !(decide (p ∈ st.coveredPairs)))
    coveredTriples :=
      st.coveredTriples ++ (triplesOf b).filter (fun p => !(decide (p ∈ st.coveredTriples)))
    exposure := b.foldl (fun e x => fun y => if y = x then e y + 1 else e y) st.exposure
    rng := st.rng
    usedFallback := st.usedFallback || fb }

/-- Bookkeeping after a pick in the top-up loop (no exposure update). -/
def pushTop (st : SelState) (b : List Int) : SelState :=
  { st with
    selected := st.selected ++ [b]
    coveredPairs := st.coveredPairs ++ (pairsOf b).filter (fun p => !(decide (p ∈ st.coveredPairs)))
    coveredTriples :=
      st.coveredTriples ++ (triplesOf b).filter (fun p => !(decide (p ∈ st.coveredTriples))) }

/-- The main selection loop (`for _ in range(n_games)`), one cheap pass over a
sampled window per slot with the exposure-feasibility first pass and the
unrestricted fallback pass.  Returning early models `break`. -/
def mainLoop (g : GameGenerator) (cands : List (List Int)) (localMax : Int) :
    Nat → SelState → SelState
  | 0, st => st
  | fuel + 1, st =>
    if cands.isEmpty then st
    else
      let poolSize := min g.CANDIDATES_PER_PICK cands.length
      let r := sampleAux poolSize st.rng cands
      let window := r.1
      let st1 : SelState := { st with rng := r.2 }
      match (pickBest (scoreOf g localMax st) (feasibleB st.exposure localMax) window).1 with
      | some b => mainLoop g cands localMax fuel (pushPick st1 b false)
      | none =>
        match (pickBest (scoreOf g localMax st) (fun _ => true) window).1 with
        | some b => mainLoop g cands localMax fuel (pushPick st1 b true)
        | none => st1

/-- The top-up loop (`while len(selected) < n_games and candidates`); the fuel
is `n_games - len(selected)`, which decreases by one at each append. -/
def topUpLoop (g : GameGenerator) (cands : List (List Int)) :
    Nat → SelState → SelState
  | 0, st => st
  | fuel + 1, st =>
    if cands.isEmpty then st
    else
      let poolSize := min g.CANDIDATES_PER_PICK cands.length
      let r := sampleAux poolSize st.rng cands
      let st1 : SelState := { st with rng := r.2 }
      match (pickBest (topScoreOf g st) (fun _ => true) r.1).1 with
      | some b => topUpLoop g cands fuel (pushTop st1 b)
      | none => st1

/-- The local exposure cap of one `generate` run. -/
def localMaxExp (g : GameGenerator) (n_games : Nat) (balanced : Bool) : Int :=
  if balanced = true ∧ n_games * 6 ≤ NUMBERS.length then 1 else g.MAX_EXPOSURE

/-- Pool building plus the main selection loop of `generate`. -/
def runMain (g : GameGenerator) (n_games : Nat) (balanced : Bool) : SelState :=
  let bp := buildPool g
  mainLoop g bp.1 (localMaxExp g n_games balanced) n_games
    ⟨[], [], [], fun _ => 0, bp.2.1, false⟩

/-- The canonical batch `selected` of one `generate` run (before the display
pass), together with the rng state after selection. -/
def selectedBatch (g : GameGenerator) (n_games : Nat) (balanced : Bool) :
    List (List Int) × RNGState :=
  let bp := buildPool g
  let st1 := runMain g n_games balanced
  let st2 := topUpLoop g bp.1 (n_games - st1.selected.length) st1
  (st2.selected, st2.rng)

/-- `GameGenerator.generate`: the returned batch, in display order. -/
def generate (g : GameGenerator) (n_games : Nat) (balanced : Bool) : List (List Int) :=
  let sel := selectedBatch g n_games balanced
  if g.DISPLAY_SHUFFLE then (shuffleAll sel.2 sel.1).1
  else sel.1.map (fun t => sortInt t)

/-- Total number of appearances of `x` across the tickets of a batch. -/
def countIn (batch : List (List Int)) (x : Int) : Nat :=
  (batch.map (fun t => t.count x)).sum

/-! ### Spec-side definitions (written from the claims, to be compared with
the source embedding) -/

/-- Modelled from the table in the claim (not from the code): the per-profile
defaults `(sum target, sum weight, bucket target, min-high)`, with any
unknown name resolving to `historico`. -/
def specProfileDefaults (name : String) : ℚ × ℚ × (ℚ × ℚ × ℚ) × Int :=
  if name = "misto" then (183, 1/10, (1/3, 1/3, 1/3), 1)
  else if name = "alto" then (260, 1/20, (3/20, 3/10, 11/20), 3)
  else (145, 3/20, (33/100, 33/100, 34/100), 1)

/-- The list of rejection conditions stated by the claim for the ticket validator. -/
def specRejects (g : GameGenerator) (t : List Int) : Prop :=
  (∃ band, g.SUM_BAND = some band ∧ ¬(band.1 ≤ t.sum ∧ t.sum ≤ band.2))
  ∨ (t.countP (fun x => 31 < x) : Int) < g.MIN_OVER_31
  ∨ (t.countP (fun x => 41 ≤ x) : Int) < g.MIN_HIGH
  ∨ ¬(g.ODD_RANGE.1 ≤ (t.countP (fun x => x % 2 == 1) : Int)
        ∧ (t.countP (fun x => x % 2 == 1) : Int) ≤ g.ODD_RANGE.2)
  ∨ (∃ x ∈ t, g.MAX_SAME_DECENIO_ < (t.countP (fun y => decenio_ y == decenio_ x) : Int))
  ∨ (∃ x ∈ t, g.MAX_SAME_ENDING < (t.countP (fun y => y % 10 == x % 10) : Int))
  ∨ g.MAX_MULT_5 < (t.countP (fun x => x % 5 == 0) : Int)
  ∨ (∃ x : Int, x ∈ t ∧ x + 1 ∈ t ∧ x + 2 ∈ t)

/-- The five additive penalty terms stated by the claim (digit classes `0..9`, decades
`1..6`). -/
def specPenalty (g : GameGenerator) (t : List Int) : ℚ :=
  g.SUM_WEIGHT * (|(t.sum : ℚ) - g.SUM_TARGET| / 60)
  + g.BUCKET_WEIGHT *
      (|((t.countP (fun x => x ≤ 20) : ℚ)) / 6 - g.BUCKET_TARGET.1|
        + |((t.countP (fun x => 21 ≤ x && x ≤ 40) : ℚ)) / 6 - g.BUCKET_TARGET.2.1|
        + |((t.countP (fun x => 41 ≤ x) : ℚ)) / 6 - g.BUCKET_TARGET.2.2|)
  + (3/10) * ((([0,1,2,3,4,5,6,7,8,9] : List Int).map
      (fun d => ((t.countP (fun x => x % 10 == d) - 1 : Nat) : ℚ))).sum)
  + (2/5) * ((([1,2,3,4,5,6] : List Int).map
      (fun d => ((t.countP (fun x => decenio_ x == d) - 2 : Nat) : ℚ))).sum)
  + (1/2) * ((t.countP (fun x => x % 5 == 0) - 2 : Nat) : ℚ)

/-! ### Concrete instances used for counterexamples and witnesses.

The generators below are written directly as the attribute record produced by
`__init__` (see `mkGen`): profile `historico` with no overrides resolves to
`SUM_TARGET = 145`, `SUM_WEIGHT = 0.15 = 3/20`,
`BUCKET_TARGET = (0.33, 0.33, 0.34)`, `MIN_HIGH = max 1 1 = 1`, and the
remaining fields are the constructor defaults except where noted.  The
`bits` streams below drive `sampleAux` so that pool building draws the
explicitly listed tickets. -/

def bitsA : Nat → Nat := fun i => [1,12,23,34,40,51].getD i 0

def rngA : RNGState := ⟨bitsA, 0⟩

/-- `GameGenerator(seed, pop_size=1, display_shuffle=False)` with profile
`historico` and `bucket_weight` default `0.20 = 1/5`; its pool is the single
ticket `[2,14,26,38,45,57]`. -/
def gPool1 : GameGenerator :=
  { rng := rngA, SUM_BAND := none, PROFILE := "historico", BUCKET_WEIGHT := 1/5
    SUM_TARGET := 145, SUM_WEIGHT := 3/20, BUCKET_TARGET := (33/100, 33/100, 34/100)
    MIN_OVER_31 := 3, MIN_HIGH := 1, ODD_RANGE := (2,4), MAX_SAME_DECENIO_ := 4
    MAX_SAME_ENDING := 2, MAX_MULT_5 := 3, MAX_EXPOSURE := 4, POP_SIZE := 1
    CANDIDATES_PER_PICK := 1200, DISPLAY_SHUFFLE := false }

def bitsB : Nat → Nat := fun i => [1,12,23,34,40,51, 3,14,25,29,36,53].getD i 0

/-- Same configuration but `pop_size=2`; its pool is
`[[2,14,26,38,45,57], [4,16,28,33,41,59]]` (two disjoint tickets). -/
def gPool2 : GameGenerator :=
  { gPool1 with rng := ⟨bitsB, 0⟩, POP_SIZE := 2 }

/-- Same configuration but `candidates_per_pick=0`. -/
def gCpp0 : GameGenerator :=
  { gPool1 with CANDIDATES_PER_PICK := 0 }

/-! ### Evaluation setup: Batteries marks `Rat` arithmetic `@[irreducible]`,
which blocks `decide`-style evaluation of the embedded program on the
concrete instances above; restore default reducibility for them. -/

set_option allowUnsafeReducibility true

attribute [semireducible] Rat.add Rat.mul Rat.inv Rat.sub Rat.ofScientific

set_option maxRecDepth 1000000
set_option maxHeartbeats 4000000

/-! ### Lemmas about the sampling primitive -/

theorem getD_eq_getElem_of_lt {α : Type} (l : List α) (d : α) {i : Nat}
    (h : i < l.length) : l.getD i d = l[i] := by
  simp [List.getD_eq_getElem?_getD, List.getElem?_eq_getElem h]

theorem perm_getElem_cons_eraseIdx {α : Type} [DecidableEq α] (l : List α) (i : Nat)
    (h : i < l.length) : l.Perm (l[i] :: l.eraseIdx i) :=
  (List.perm_cons_erase (List.getElem_mem h)).trans ((List.erase_getElem h).cons _)

theorem sampleAux_mem {α : Type} :
    ∀ (k : Nat) (rng : RNGState) (l : List α) (x : α),
      x ∈ (sampleAux k rng l).1 → x ∈ l
  | 0, _, _, _, h => by simp [sampleAux] at h
  | _ + 1, _, [], _, h => by simp [sampleAux] at h
  | k + 1, rng, a :: l, x, h => by
    rw [sampleAux] at h
    have hi : rng.bits rng.pos % (a :: l).length < (a :: l).length :=
      Nat.mod_lt _ (by simp)
    rcases List.mem_cons.1 h with h1 | h2
    · rw [h1, getD_eq_getElem_of_lt _ _ hi]
      exact List.getElem_mem hi
    · exact List.eraseIdx_subset _ _ (sampleAux_mem k rng.advance _ x h2)

theorem sampleAux_length {α : Type} :
    ∀ (k : Nat) (rng : RNGState) (l : List α),
      (sampleAux k rng l).1.length = min k l.length
  | 0, _, _ => by simp [sampleAux]
  | _ + 1, _, [] => by simp [sampleAux]
  | k + 1, rng, a :: l => by
    rw [sampleAux]
    have hi : rng.bits rng.pos % (a :: l).length < (a :: l).length :=
      Nat.mod_lt _ (by simp)
    have hrec := sampleAux_length k rng.advance
      ((a :: l).eraseIdx (rng.bits rng.pos % (a :: l).length))
    have hlen := List.length_eraseIdx_of_lt hi
    simp only [List.length_cons] at hrec hlen ⊢
    rw [hrec, hlen]
    omega

theorem sampleAux_perm {α : Type} [DecidableEq α] :
    ∀ (k : Nat) (rng : RNGState) (l : List α), l.length ≤ k →
      (sampleAux k rng l).1.Perm l
  | 0, _, l, h => by
    have hl : l = [] := List.length_eq_zero.1 (Nat.le_zero.1 h)
    subst hl; simp [sampleAux]
  | _ + 1, _, [], _ => by simp [sampleAux]
  | k + 1, rng, a :: l, h => by
    rw [sampleAux]
    have hi : rng.bits rng.pos % (a :: l).length < (a :: l).length :=
      Nat.mod_lt _ (by simp)
    have hlen : ((a :: l).eraseIdx (rng.bits rng.pos % (a :: l).length)).length ≤ k := by
      rw [List.length_eraseIdx_of_lt hi]; simp only [List.length_cons] at h ⊢; omega
    have hrec := sampleAux_perm k rng.advance _ hlen
    rw [getD_eq_getElem_of_lt _ _ hi]
    exact (hrec.cons _).trans (perm_getElem_cons_eraseIdx _ _ hi).symm

theorem sampleAux_nodup {α : Type} [DecidableEq α] :
    ∀ (k : Nat) (rng : RNGState) (l : List α), l.Nodup →
      (sampleAux k rng l).1.Nodup
  | 0, _, _, _ => by simp [sampleAux]
  | _ + 1, _, [], _ => by simp [sampleAux]
  | k + 1, rng, a :: l, hnd => by
    rw [sampleAux]
    have hi : rng.bits rng.pos % (a :: l).length < (a :: l).length :=
      Nat.mod_lt _ (by simp)
    have hnd2 := (perm_getElem_cons_eraseIdx (a :: l) _ hi).nodup hnd
    have hx := List.nodup_cons.1 hnd2
    rw [getD_eq_getElem_of_lt _ _ hi]
    simp only [List.nodup_cons]
    refine ⟨fun hmem => hx.1 ?_, sampleAux_nodup k rng.advance _ hx.2⟩
    exact sampleAux_mem k rng.advance _ _ hmem

/-! ### Facts about the universe -/

theorem NUMBERS_nodup : NUMBERS.Nodup := by decide

theorem NUMBERS_range : ∀ x ∈ NUMBERS, 1 ≤ x ∧ x ≤ 60 := by decide

theorem NUMBERS_length : NUMBERS.length = 60 := by decide

/-! ### Pool-builder lemmas -/

/-- What the spec guarantees of every pool member: it validates under the
configuration of the pool itself and is a canonical sorted duplicate-free 6-element
ticket drawn from the universe. -/
def poolTicketProp (g : GameGenerator) (t : List Int) : Prop :=
  ticketOk g t = true ∧ t.Sorted (· ≤ ·) ∧ t.Nodup ∧ t.length = 6
    ∧ ∀ x ∈ t, 1 ≤ x ∧ x ≤ 60

theorem newTicket_prop (g : GameGenerator) (rng : RNGState)
    (hok : ticketOk g (sortInt (sampleAux 6 rng NUMBERS).1) = true) :
    poolTicketProp g (sortInt (sampleAux 6 rng NUMBERS).1) := by
  have hperm : (sortInt (sampleAux 6 rng NUMBERS).1).Perm (sampleAux 6 rng NUMBERS).1 :=
    List.perm_insertionSort _ _
  have hnd : (sampleAux 6 rng NUMBERS).1.Nodup := sampleAux_nodup _ _ _ NUMBERS_nodup
  refine ⟨hok, List.sorted_insertionSort _ _, hperm.symm.nodup hnd, ?_, ?_⟩
  · rw [hperm.length_eq, sampleAux_length, NUMBERS_length]; omega
  · intro x hx
    exact NUMBERS_range x (sampleAux_mem _ _ _ _ (hperm.mem_iff.1 hx))

theorem buildPoolAux_mem_prop (g : GameGenerator) :
    ∀ (fuel : Nat) (acc : List (List Int)) (rng : RNGState) (tr : Nat),
      (∀ t ∈ acc, poolTicketProp g t) →
      ∀ t ∈ (buildPoolAux g fuel acc rng tr).1, poolTicketProp g t
  | 0, acc, rng, tr, hacc => by rw [buildPoolAux]; exact hacc
  | fuel + 1, acc, rng, tr, hacc => by
    rw [buildPoolAux]
    by_cases hlt : acc.length < g.POP_SIZE
    · simp only [if_pos hlt]
      apply buildPoolAux_mem_prop g fuel _ _ _
      intro t ht
      by_cases hg : (ticketOk g (sortInt (sampleAux 6 rng NUMBERS).1)
          && !(decide ((sortInt (sampleAux 6 rng NUMBERS).1) ∈ acc))) = true
      · rw [if_pos hg] at ht
        rcases List.mem_append.1 ht with h1 | h2
        · exact hacc t h1
        · have := List.mem_singleton.1 h2
          subst this
          exact newTicket_prop g rng (Bool.and_eq_true_iff.1 hg).1
      · rw [if_neg hg] at ht
        exact hacc t ht
    · simp only [if_neg hlt]
      exact hacc

theorem buildPool_mem_prop (g : GameGenerator) :
    ∀ t ∈ (buildPool g).1, poolTicketProp g t :=
  buildPoolAux_mem_prop g _ _ _ _ (by intro t ht; cases ht)

theorem buildPoolAux_nodup (g : GameGenerator) :
    ∀ (fuel : Nat) (acc : List (List Int)) (rng : RNGState) (tr : Nat),
      acc.Nodup → (buildPoolAux g fuel acc rng tr).1.Nodup
  | 0, acc, rng, tr, hacc => by rw [buildPoolAux]; exact hacc
  | fuel + 1, acc, rng, tr, hacc => by
    rw [buildPoolAux]
    by_cases hlt : acc.length < g.POP_SIZE
    · simp only [if_pos hlt]
      apply buildPoolAux_nodup g fuel _ _ _
      by_cases hg : (ticketOk g (sortInt (sampleAux 6 rng NUMBERS).1)
          && !(decide ((sortInt (sampleAux 6 rng NUMBERS).1) ∈ acc))) = true
      · rw [if_pos hg]
        have hnotmem : (sortInt (sampleAux 6 rng NUMBERS).1) ∉ acc := by
          have := (Bool.and_eq_true_iff.1 hg).2
          simpa using this
        simp [List.nodup_append, hacc, hnotmem]
      · rw [if_neg hg]; exact hacc
    · simp only [if_neg hlt]
      exact hacc

theorem buildPoolAux_bounds (g : GameGenerator) :
    ∀ (fuel : Nat) (acc : List (List Int)) (rng : RNGState) (tr : Nat),
      acc.length ≤ g.POP_SIZE →
      (buildPoolAux g fuel acc rng tr).1.length ≤ g.POP_SIZE
      ∧ (buildPoolAux g fuel acc rng tr).2.2 ≤ tr + fuel
      ∧ ((buildPoolAux g fuel acc rng tr).1.length = g.POP_SIZE
          ∨ (buildPoolAux g fuel acc rng tr).2.2 = tr + fuel)
  | 0, acc, rng, tr, hacc => by
    rw [buildPoolAux]; exact ⟨hacc, Nat.le_refl _, Or.inr rfl⟩
  | fuel + 1, acc, rng, tr, hacc => by
    rw [buildPoolAux]
    by_cases hlt : acc.length < g.POP_SIZE
    · simp only [if_pos hlt]
      have hacc2 : (if (ticketOk g (sortInt (sampleAux 6 rng NUMBERS).1)
          && !(decide ((sortInt (sampleAux 6 rng NUMBERS).1) ∈ acc))) = true
          then acc ++ [sortInt (sampleAux 6 rng NUMBERS).1] else acc).length ≤ g.POP_SIZE := by
        split
        · rw [List.length_append, List.length_singleton]; omega
        · omega
      have hrec := buildPoolAux_bounds g fuel _ (sampleAux 6 rng NUMBERS).2 (tr + 1) hacc2
      refine ⟨hrec.1, by omega, ?_⟩
      rcases hrec.2.2 with h | h
      · exact Or.inl h
      · exact Or.inr (by omega)
    · simp only [if_neg hlt]
      exact ⟨hacc, by omega, Or.inl (by omega)⟩

/-! ### Claim theorems: pool builder -/

/-- Claim C9: the pool-building loop is bounded: it makes at most
`POP_SIZE * 50` sampling attempts, the pool it returns has at most
`POP_SIZE` tickets, and it stops early exactly when the target size is
reached (so either the pool is full or the whole budget was used).
Termination and the no-error return of an undersized pool are inherent in
the embedding: `buildPool` is a total function. -/
theorem claim_C9_pool_builder_bounds (g : GameGenerator) :
    (buildPool g).1.length ≤ g.POP_SIZE
    ∧ (buildPool g).2.2 ≤ g.POP_SIZE * 50
    ∧ ((buildPool g).1.length = g.POP_SIZE ∨ (buildPool g).2.2 = g.POP_SIZE * 50) := by
  have h := buildPoolAux_bounds g (g.POP_SIZE * 50) [] g.rng 0 (by simp)
  rw [buildPool]
  refine ⟨h.1, by have := h.2.1; omega, ?_⟩
  rcases h.2.2 with h1 | h1
  · exact Or.inl h1
  · exact Or.inr (by omega)

/-- Claim C7: every ticket accumulated into the candidate pool validates
under the configuration that built the pool, and is a canonical sorted
tuple of 6 distinct integers of the universe `1..60`. -/
theorem claim_C7_pool_valid (g : GameGenerator) (t : List Int)
    (ht : t ∈ (buildPool g).1) :
    ticketOk g t = true ∧ t.Sorted (· ≤ ·) ∧ t.Nodup ∧ t.length = 6
      ∧ ∀ x ∈ t, 1 ≤ x ∧ x ≤ 60 :=
  buildPool_mem_prop g t ht

theorem claim_C7_witness :
    ([2,14,26,38,45,57] ∈ (buildPool gPool1).1)
    ∧ ticketOk gPool1 [2,14,26,38,45,57] = true :=
  ⟨by decide, (claim_C7_pool_valid gPool1 [2,14,26,38,45,57] (by decide)).1⟩

/-- Claim C2 (amended): within one run no ticket enters the candidate pool
twice — the pool is duplicate-free.  (The returned Batch itself can repeat a
pool ticket: see the counterexample.) -/
theorem claim_C2_pool_nodup (g : GameGenerator) : (buildPool g).1.Nodup :=
  buildPoolAux_nodup g _ _ _ _ List.nodup_nil

/-- Claim C2 counterexample: with a pool of a single candidate and
`n_games = 2`, the batch returned by `generate` contains the same canonical
6-element set twice — entries 0 and 1 coincide. -/
theorem claim_C2_counterexample :
    (generate gPool1 2 false).length = 2
    ∧ (generate gPool1 2 false).get? 0 = some [2,14,26,38,45,57]
    ∧ (generate gPool1 2 false).get? 1 = some [2,14,26,38,45,57] := by
  refine ⟨?_, ?_, ?_⟩ <;> decide

/-- Claim C1: `generate` on two freshly constructed generator instances with
identical seed and identical constructor arguments yields identical batches
(same tickets, same order, same display permutations).  `seedFn` models the
deterministic map from a seed string to the state of `random.Random(seed)`. -/
theorem claim_C1_determinism (seedFn : String → RNGState) (seed : String)
    (sum_band : Option (Int × Int)) (profile : String)
    (sum_target sum_weight : Option ℚ) (bucket_target : Option (ℚ × ℚ × ℚ))
    (bucket_weight : ℚ) (min_over31 min_high : Int) (odd_range : Int × Int)
    (max_same_decenio_ max_same_ending max_mult5 max_exposure : Int)
    (pop_size candidates_per_pick : Nat) (display_shuffle : Bool)
    (n_games : Nat) (balanced : Bool) :
    generate
      (mkGen (seedFn seed) sum_band profile sum_target sum_weight bucket_target
        bucket_weight min_over31 min_high odd_range max_same_decenio_
        max_same_ending max_mult5 max_exposure pop_size candidates_per_pick
        display_shuffle) n_games balanced
    = generate
      (mkGen (seedFn seed) sum_band profile sum_target sum_weight bucket_target
        bucket_weight min_over31 min_high odd_range max_same_decenio_
        max_same_ending max_mult5 max_exposure pop_size candidates_per_pick
        display_shuffle) n_games balanced := rfl

/-! ### Display-formatter lemmas -/

theorem shuffleList_perm (rng : RNGState) (t : List Int) :
    (shuffleList rng t).1.Perm t :=
  sampleAux_perm _ _ _ (Nat.le_refl _)

theorem shuffleAll_forall2 (rng : RNGState) :
    ∀ ts : List (List Int), List.Forall₂ (fun d c => d.Perm c) (shuffleAll rng ts).1 ts
  | [] => by rw [shuffleAll]; exact List.Forall₂.nil
  | t :: ts => by
    rw [shuffleAll]
    exact List.Forall₂.cons (shuffleList_perm rng t) (shuffleAll_forall2 _ ts)

/-- Claim C10: every ticket of the returned batch is, position by position, a
permutation of the corresponding canonical (sorted) selected ticket — with
display shuffling enabled (seeded shuffle) and disabled (ascending order)
alike. -/
theorem claim_C10_display_perm (g : GameGenerator) (n_games : Nat) (balanced : Bool) :
    List.Forall₂ (fun d c => d.Perm c)
      (generate g n_games balanced) (selectedBatch g n_games balanced).1 := by
  rw [generate]
  by_cases h : g.DISPLAY_SHUFFLE
  · simp only [if_pos h]
    exact shuffleAll_forall2 _ _
  · simp only [if_neg h]
    induction (selectedBatch g n_games balanced).1 with
    | nil => exact List.Forall₂.nil
    | cons t ts ih =>
      exact List.Forall₂.cons (List.perm_insertionSort _ t) ih

/-- Claim C6: profile resolution is a pure function of its inputs.  With no
caller overrides, the resolved sum target / sum weight / bucket target /
minimum-high equal the tabulated defaults of `specProfileDefaults` —
including the fallback of every unknown (normalised) profile name to
`historico` — and with overrides supplied, each override replaces its
default, except that the minimum-high override is floored at the own minimum of the profile (`max`). -/
theorem claim_C6_profile_resolution (rng0 : RNGState)
    (sum_band : Option (Int × Int)) (profile : String)
    (stv swv : ℚ) (btv : ℚ × ℚ × ℚ) (bucket_weight : ℚ)
    (min_over31 min_high : Int) (odd_range : Int × Int)
    (max_same_decenio_ max_same_ending max_mult5 max_exposure : Int)
    (pop_size candidates_per_pick : Nat) (display_shuffle : Bool) :
    ((mkGen rng0 sum_band profile none none none bucket_weight min_over31
        min_high odd_range max_same_decenio_ max_same_ending max_mult5
        max_exposure pop_size candidates_per_pick display_shuffle).SUM_TARGET
      = (specProfileDefaults profile.toLower.trim).1)
    ∧ ((mkGen rng0 sum_band profile none none none bucket_weight min_over31
        min_high odd_range max_same_decenio_ max_same_ending max_mult5
        max_exposure pop_size candidates_per_pick display_shuffle).SUM_WEIGHT
      = (specProfileDefaults profile.toLower.trim).2.1)
    ∧ ((mkGen rng0 sum_band profile none none none bucket_weight min_over31
        min_high odd_range max_same_decenio_ max_same_ending max_mult5
        max_exposure pop_size candidates_per_pick display_shuffle).BUCKET_TARGET
      = (specProfileDefaults profile.toLower.trim).2.2.1)
    ∧ ((mkGen rng0 sum_band profile none none none bucket_weight min_over31
        min_high odd_range max_same_decenio_ max_same_ending max_mult5
        max_exposure pop_size candidates_per_pick display_shuffle).MIN_HIGH
      = max min_high (specProfileDefaults profile.toLower.trim).2.2.2)
    ∧ ((mkGen rng0 sum_band profile (some stv) (some swv) (some btv)
        bucket_weight min_over31 min_high odd_range max_same_decenio_
        max_same_ending max_mult5 max_exposure pop_size candidates_per_pick
        display_shuffle).SUM_TARGET = stv)
    ∧ ((mkGen rng0 sum_band profile (some stv) (some swv) (some btv)
        bucket_weight min_over31 min_high odd_range max_same_decenio_
        max_same_ending max_mult5 max_exposure pop_size candidates_per_pick
        display_shuffle).SUM_WEIGHT = swv)
    ∧ ((mkGen rng0 sum_band profile (some stv) (some swv) (some btv)
        bucket_weight min_over31 min_high odd_range max_same_decenio_
        max_same_ending max_mult5 max_exposure pop_size candidates_per_pick
        display_shuffle).BUCKET_TARGET = btv)
    ∧ ((mkGen rng0 sum_band profile (some stv) (some swv) (some btv)
        bucket_weight min_over31 min_high odd_range max_same_decenio_
        max_same_ending max_mult5 max_exposure pop_size candidates_per_pick
        display_shuffle).MIN_HIGH
      = max min_high (specProfileDefaults profile.toLower.trim).2.2.2) := by
  simp only [mkGen, specProfileDefaults]
  split_ifs <;> simp

/-! ### Penalty-scorer lemmas (claim C5) -/

theorem toFinset_dedup_list (keys : List Int) : keys.dedup.toFinset = keys.toFinset := by
  apply Finset.ext
  intro a
  simp [List.mem_toFinset, List.mem_dedup]

/-- Summing a function of the per-key counts over only the distinct keys
present equals summing it over any duplicate-free superset of keys, provided
the function vanishes on absent keys. -/
theorem sum_dedup_eq_sum_domain (keys D : List Int) (F : Int → ℚ) (hD : D.Nodup)
    (hsub : ∀ k ∈ keys, k ∈ D) (hF : ∀ d ∈ D, d ∉ keys → F d = 0) :
    ((keys.dedup).map F).sum = (D.map F).sum := by
  have h1 : ((keys.dedup).map F).sum = keys.toFinset.sum F := by
    rw [← List.sum_toFinset F keys.nodup_dedup, toFinset_dedup_list]
  have h2 : (D.map F).sum = D.toFinset.sum F := (List.sum_toFinset F hD).symm
  rw [h1, h2]
  apply Finset.sum_subset
  · intro d hd
    rw [List.mem_toFinset] at hd ⊢
    exact hsub d hd
  · intro d hd hnd
    refine hF d (List.mem_toFinset.1 hd) (fun hk => hnd (List.mem_toFinset.2 hk))

theorem emod10_mem (x : Int) : x % 10 ∈ ([0,1,2,3,4,5,6,7,8,9] : List Int) := by
  have h1 : 0 ≤ x % 10 := Int.emod_nonneg x (by omega)
  have h2 : x % 10 < 10 := Int.emod_lt_of_pos x (by omega)
  simp only [List.mem_cons, List.not_mem_nil, or_false]
  omega

theorem decenio_eq_ediv (x : Int) : decenio_ x = (x - 1) / 10 + 1 := by
  rw [decenio_, Int.fdiv_eq_ediv _ (by omega)]

theorem decenio_mem (x : Int) (h1 : 1 ≤ x) (h2 : x ≤ 60) :
    decenio_ x ∈ ([1,2,3,4,5,6] : List Int) := by
  rw [decenio_eq_ediv]
  simp only [List.mem_cons, List.not_mem_nil, or_false]
  omega

theorem endCounts_sum_eq (t : List Int) (F : Nat → ℚ) (hF0 : F 0 = 0) :
    ((endCountsList t).map F).sum
      = ((([0,1,2,3,4,5,6,7,8,9] : List Int)).map
          (fun d => F (t.countP (fun x => x % 10 == d)))).sum := by
  rw [endCountsList, List.map_map]
  apply sum_dedup_eq_sum_domain
  · decide
  · intro k hk
    rcases List.mem_map.1 hk with ⟨x, _, hx⟩
    exact hx ▸ emod10_mem x
  · intro d _ hd
    have hzero : t.countP (fun x => x % 10 == d) = 0 := by
      rw [List.countP_eq_zero]
      intro a ha hba
      exact hd (List.mem_map.2 ⟨a, ha, by simpa using hba⟩)
    simp [Function.comp, hzero, hF0]

theorem decCounts_sum_eq (t : List Int) (F : Nat → ℚ) (hF0 : F 0 = 0)
    (hrange : ∀ x ∈ t, 1 ≤ x ∧ x ≤ 60) :
    ((decCountsList t).map F).sum
      = ((([1,2,3,4,5,6] : List Int)).map
          (fun d => F (t.countP (fun x => decenio_ x == d)))).sum := by
  rw [decCountsList, List.map_map]
  apply sum_dedup_eq_sum_domain
  · decide
  · intro k hk
    rcases List.mem_map.1 hk with ⟨x, hx, hxe⟩
    exact hxe ▸ decenio_mem x (hrange x hx).1 (hrange x hx).2
  · intro d _ hd
    have hzero : t.countP (fun x => decenio_ x == d) = 0 := by
      rw [List.countP_eq_zero]
      intro a ha hba
      exact hd (List.mem_map.2 ⟨a, ha, by simpa using hba⟩)
    simp [Function.comp, hzero, hF0]

theorem bucket_partition (t : List Int) :
    t.countP (fun x => x ≤ 20) + t.countP (fun x => 21 ≤ x && x ≤ 40)
      + t.countP (fun x => 41 ≤ x) = t.length := by
  induction t with
  | nil => simp
  | cons a t ih =>
    simp only [List.countP_cons, List.length_cons]
    simp only [decide_eq_true_eq, Bool.and_eq_true]
    split_ifs <;> omega

/-- Claim C5: for every 6-element ticket from the universe and every
configuration with non-negative weights, the anti-popularity penalty equals
the sum of exactly the five additive spec terms (computed on the canonical
sorted form, which has the same counts and sum), and is non-negative. -/
theorem claim_C5_penalty (g : GameGenerator) (t : List Int)
    (hsw : 0 ≤ g.SUM_WEIGHT) (hbw : 0 ≤ g.BUCKET_WEIGHT)
    (h6 : t.length = 6) (hrange : ∀ x ∈ t, 1 ≤ x ∧ x ≤ 60) :
    antiPopularityPenalty g t = specPenalty g t
    ∧ 0 ≤ antiPopularityPenalty g t := by
  have hperm : (sortInt t).Perm t := List.perm_insertionSort _ t
  have hrange2 : ∀ x ∈ sortInt t, 1 ≤ x ∧ x ≤ 60 := fun x hx =>
    hrange x (hperm.mem_iff.1 hx)
  have hcount : ∀ p : Int → Bool, (sortInt t).countP p = t.countP p :=
    fun p => hperm.countP_eq p
  have heq : antiPopularityPenalty g t = specPenalty g t := by
    rw [antiPopularityPenalty, specPenalty]
    have hsum : ((sortInt t).sum : ℚ) = (t.sum : ℚ) := by rw [hperm.sum_eq]
    have hA : (if 0 < g.SUM_WEIGHT then
          g.SUM_WEIGHT * (|((sortInt t).sum : ℚ) - g.SUM_TARGET| / 60) else 0)
        = g.SUM_WEIGHT * (|(t.sum : ℚ) - g.SUM_TARGET| / 60) := by
      rcases lt_or_eq_of_le hsw with h | h
      · rw [if_pos h, hsum]
      · rw [← h]; simp
    have hb3 : ((6 - ((sortInt t).countP (fun x => x ≤ 20) : Int)
          - ((sortInt t).countP (fun x => 21 ≤ x && x ≤ 40) : Int) : Int) : ℚ)
        = ((t.countP (fun x => 41 ≤ x) : Nat) : ℚ) := by
      have hpart := bucket_partition t
      rw [h6] at hpart
      rw [hcount, hcount]
      have : (6 - (t.countP (fun x => x ≤ 20) : Int)
          - (t.countP (fun x => 21 ≤ x && x ≤ 40) : Int) : Int)
          = ((t.countP (fun x => 41 ≤ x) : Nat) : Int) := by
        omega
      rw [this]
      push_cast
      ring
    have hEnd : ((endCountsList (sortInt t)).map (fun c => ((c - 1 : Nat) : ℚ))).sum
        = ((([0,1,2,3,4,5,6,7,8,9] : List Int)).map
            (fun d => ((t.countP (fun x => x % 10 == d) - 1 : Nat) : ℚ))).sum := by
      rw [endCounts_sum_eq (sortInt t) _ (by norm_num)]
      simp only [hcount]
    have hDec : ((decCountsList (sortInt t)).map (fun c => ((c - 2 : Nat) : ℚ))).sum
        = ((([1,2,3,4,5,6] : List Int)).map
            (fun d => ((t.countP (fun x => decenio_ x == d) - 2 : Nat) : ℚ))).sum := by
      rw [decCounts_sum_eq (sortInt t) _ (by norm_num) hrange2]
      simp only [hcount]
    rw [hA, hb3, hEnd, hDec]
    simp only [hcount]
    ring
  refine ⟨heq, ?_⟩
  rw [heq, specPenalty]
  have h1 : (0:ℚ) ≤ g.SUM_WEIGHT * (|(t.sum : ℚ) - g.SUM_TARGET| / 60) :=
    mul_nonneg hsw (div_nonneg (abs_nonneg _) (by norm_num))
  have h2 : (0:ℚ) ≤ g.BUCKET_WEIGHT *
      (|((t.countP (fun x => x ≤ 20) : ℚ)) / 6 - g.BUCKET_TARGET.1|
        + |((t.countP (fun x => 21 ≤ x && x ≤ 40) : ℚ)) / 6 - g.BUCKET_TARGET.2.1|
        + |((t.countP (fun x => 41 ≤ x) : ℚ)) / 6 - g.BUCKET_TARGET.2.2|) :=
    mul_nonneg hbw
      (add_nonneg (add_nonneg (abs_nonneg _) (abs_nonneg _)) (abs_nonneg _))
  have hsumnn : ∀ (D : List Int) (F : Int → ℚ), (∀ d, 0 ≤ F d) → 0 ≤ (D.map F).sum := by
    intro D F hf
    apply List.sum_nonneg
    intro q hq
    rcases List.mem_map.1 hq with ⟨d, _, hd⟩
    exact hd ▸ hf d
  have h3 : (0:ℚ) ≤ (3/10) * ((([0,1,2,3,4,5,6,7,8,9] : List Int)).map
      (fun d => ((t.countP (fun x => x % 10 == d) - 1 : Nat) : ℚ))).sum :=
    mul_nonneg (by norm_num) (hsumnn _ _ (fun d => Nat.cast_nonneg _))
  have h4 : (0:ℚ) ≤ (2/5) * ((([1,2,3,4,5,6] : List Int)).map
      (fun d => ((t.countP (fun x => decenio_ x == d) - 2 : Nat) : ℚ))).sum :=
    mul_nonneg (by norm_num) (hsumnn _ _ (fun d => Nat.cast_nonneg _))
  have h5 : (0:ℚ) ≤ (1/2) * ((t.countP (fun x => x % 5 == 0) - 2 : Nat) : ℚ) :=
    mul_nonneg (by norm_num) (Nat.cast_nonneg _)
  linarith

theorem claim_C5_witness :
    (0 ≤ gPool1.SUM_WEIGHT ∧ 0 ≤ gPool1.BUCKET_WEIGHT
      ∧ ([2,14,26,38,45,57] : List Int).length = 6)
    ∧ (antiPopularityPenalty gPool1 [2,14,26,38,45,57]
        = specPenalty gPool1 [2,14,26,38,45,57]
      ∧ 0 ≤ antiPopularityPenalty gPool1 [2,14,26,38,45,57]) :=
  ⟨⟨by decide, by decide, by decide⟩,
    claim_C5_penalty gPool1 [2,14,26,38,45,57] (by decide) (by decide) (by decide)
      (by decide)⟩

/-! ### Long-sequence characterisation (claim C4) -/

/-- Three consecutive values sitting in adjacent positions somewhere in `l`. -/
def adjTriple : List Int → Bool
  | a :: b :: c :: r => (decide (b = a + 1) && decide (c = b + 1)) || adjTriple (b :: c :: r)
  | _ => false

def headSucc (a : Int) : List Int → Bool
  | [] => false
  | b :: _ => decide (b = a + 1)

theorem hlsAux_eq : ∀ (l : List Int) (a : Int) (r : Nat),
    hasLongSequenceAux 3 a (r + 1) l
      = (adjTriple (a :: l) || (decide (1 ≤ r) && headSucc a l))
  | [], a, r => by simp [hasLongSequenceAux, adjTriple, headSucc]
  | b :: rest, a, r => by
    rw [hasLongSequenceAux]
    by_cases hb : b = a + 1
    · rw [if_pos hb]
      by_cases hr : 3 ≤ r + 1 + 1
      · rw [if_pos hr]
        have h1 : decide (1 ≤ r) = true := by simp; omega
        have h2 : headSucc a (b :: rest) = true := by simp [headSucc, hb]
        simp [h1, h2]
      · rw [if_neg hr]
        have hr0 : r = 0 := by omega
        subst hr0
        rw [show (0:Nat) + 1 + 1 = 1 + 1 from rfl, hlsAux_eq rest b 1]
        cases rest with
        | nil => simp [adjTriple, headSucc]
        | cons c r2 =>
          simp only [adjTriple, headSucc, hb, decide_True, Bool.true_and,
            decide_eq_true_eq]
          cases hc : decide (c = b + 1) <;> simp [hc, hb] <;>
            cases adjTriple (b :: c :: r2) <;> simp_all
    · rw [if_neg hb]
      rw [show (1:Nat) = 0 + 1 from rfl, hlsAux_eq rest b 0]
      cases rest with
      | nil => simp [adjTriple, headSucc, hb]
      | cons c r2 => simp [adjTriple, headSucc, hb]

theorem hasLongSequence_eq_adjTriple (t : List Int) :
    hasLongSequence t 3 = adjTriple (sortInt t) := by
  rw [hasLongSequence]
  cases h : sortInt t with
  | nil => simp [adjTriple]
  | cons a rest =>
    show hasLongSequenceAux 3 a 1 rest = adjTriple (a :: rest)
    rw [show (1:Nat) = 0 + 1 from rfl, hlsAux_eq]
    simp

theorem adjTriple_exists : ∀ l : List Int, adjTriple l = true →
    ∃ x : Int, x ∈ l ∧ x + 1 ∈ l ∧ x + 2 ∈ l
  | [], h => by simp [adjTriple] at h
  | [a], h => by simp [adjTriple] at h
  | [a, b], h => by simp [adjTriple] at h
  | a :: b :: c :: r, h => by
    rw [adjTriple, Bool.or_eq_true] at h
    rcases h with h | h
    · rw [Bool.and_eq_true, decide_eq_true_eq, decide_eq_true_eq] at h
      refine ⟨a, List.mem_cons_self _ _, ?_, ?_⟩
      · rw [← h.1]; simp
      · have hc : c = a + 2 := by omega
        rw [← hc]; simp
    · obtain ⟨x, h1, h2, h3⟩ := adjTriple_exists _ h
      exact ⟨x, List.mem_cons_of_mem _ h1, List.mem_cons_of_mem _ h2,
        List.mem_cons_of_mem _ h3⟩

theorem exists_adjTriple : ∀ (l : List Int), l.Sorted (· < ·) →
    ∀ x : Int, x ∈ l → x + 1 ∈ l → x + 2 ∈ l → adjTriple l = true
  | [], _, x, hx, _, _ => by cases hx
  | a :: rest, hs, x, hx, hx1, hx2 => by
    have hsrest : rest.Sorted (· < ·) := hs.of_cons
    have hlt : ∀ y ∈ rest, a < y := List.rel_of_sorted_cons hs
    by_cases hxa : x = a
    · subst hxa
      have h1r : x + 1 ∈ rest := by
        rcases List.mem_cons.1 hx1 with h | h
        · omega
        · exact h
      cases rest with
      | nil => cases h1r
      | cons b r2 =>
        have hxb : x < b := hlt b (List.mem_cons_self _ _)
        have hb : b = x + 1 := by
          rcases List.mem_cons.1 h1r with h | h
          · omega
          · have hblt := List.rel_of_sorted_cons hsrest _ h
            omega
        have h2r : x + 2 ∈ b :: r2 := by
          rcases List.mem_cons.1 hx2 with h | h
          · omega
          · exact h
        cases r2 with
        | nil =>
          exfalso
          rcases List.mem_cons.1 h2r with h | h
          · omega
          · cases h
        | cons c r3 =>
          have hbc : b < c := List.rel_of_sorted_cons hsrest c (List.mem_cons_self _ _)
          have hc : c = x + 2 := by
            rcases List.mem_cons.1 h2r with h | h
            · omega
            · rcases List.mem_cons.1 h with h2 | h2
              · omega
              · have := List.rel_of_sorted_cons hsrest.of_cons _ h2
                omega
          rw [adjTriple, Bool.or_eq_true]
          left
          rw [Bool.and_eq_true, decide_eq_true_eq, decide_eq_true_eq]
          omega
    · have hxr : x ∈ rest := by
        rcases List.mem_cons.1 hx with h | h
        · exact absurd h hxa
        · exact h
      have hax : a < x := hlt x hxr
      have h1r : x + 1 ∈ rest := by
        rcases List.mem_cons.1 hx1 with h | h
        · omega
        · exact h
      have h2r : x + 2 ∈ rest := by
        rcases List.mem_cons.1 hx2 with h | h
        · omega
        · exact h
      have hrec := exists_adjTriple rest hsrest x hxr h1r h2r
      cases rest with
      | nil => cases hxr
      | cons b r2 =>
        cases r2 with
        | nil => simp [adjTriple] at hrec
        | cons c r3 =>
          rw [adjTriple, Bool.or_eq_true]
          exact Or.inr hrec

theorem hasLongSequence_mem_iff (t : List Int) (hnd : t.Nodup) :
    hasLongSequence t 3 = true ↔ ∃ x : Int, x ∈ t ∧ x + 1 ∈ t ∧ x + 2 ∈ t := by
  rw [hasLongSequence_eq_adjTriple]
  have hperm : (sortInt t).Perm t := List.perm_insertionSort _ t
  have hndt : (sortInt t).Nodup := hperm.symm.nodup hnd
  have hle : (sortInt t).Sorted (· ≤ ·) := List.sorted_insertionSort _ t
  have hlt : (sortInt t).Sorted (· < ·) :=
    (hle.and hndt).imp (fun h => lt_of_le_of_ne h.1 h.2)
  constructor
  · intro h
    obtain ⟨x, h1, h2, h3⟩ := adjTriple_exists _ h
    exact ⟨x, hperm.mem_iff.1 h1, hperm.mem_iff.1 h2, hperm.mem_iff.1 h3⟩
  · rintro ⟨x, h1, h2, h3⟩
    exact exists_adjTriple _ hlt x (hperm.mem_iff.2 h1) (hperm.mem_iff.2 h2)
      (hperm.mem_iff.2 h3)

theorem counts_any_iff (t : List Int) (key : Int → Int) (M : Int) :
    ((((t.map key).dedup).map (fun d => t.countP (fun x => key x == d))).any
        (fun c => decide (M < (c : Int)))) = true
      ↔ ∃ x ∈ t, M < (t.countP (fun y => key y == key x) : Int) := by
  simp only [List.any_eq_true, List.mem_map, List.mem_dedup, decide_eq_true_eq]
  constructor
  · rintro ⟨c, ⟨d, ⟨x, hx, hk⟩, hcd⟩, hMc⟩
    subst hk
    subst hcd
    exact ⟨x, hx, hMc⟩
  · rintro ⟨x, hx, hMx⟩
    exact ⟨t.countP (fun y => key y == key x), ⟨key x, ⟨x, hx, rfl⟩, rfl⟩, hMx⟩

/-- Claim C4: over 6-element duplicate-free tickets from the universe, the
validator returns `false` exactly when at least one of the rejection
conditions of the spec holds (`specRejects`).  Totality and freedom from side effects
and exceptions are inherent: `ticketOk` is a total Boolean function. -/
theorem claim_C4_validator_iff (g : GameGenerator) (t : List Int)
    (hnd : t.Nodup) (h6 : t.length = 6) (hrange : ∀ x ∈ t, 1 ≤ x ∧ x ≤ 60) :
    ticketOk g t = false ↔ specRejects g t := by
  have hperm : (sortInt t).Perm t := List.perm_insertionSort _ t
  have hcount : ∀ p : Int → Bool, (sortInt t).countP p = t.countP p :=
    fun p => hperm.countP_eq p
  have hsum : (sortInt t).sum = t.sum := hperm.sum_eq
  have hndt : (sortInt t).Nodup := hperm.symm.nodup hnd
  have h1 : ((match g.SUM_BAND with
      | none => true
      | some band => decide (band.1 ≤ (sortInt t).sum) && decide ((sortInt t).sum ≤ band.2)) = false)
      ↔ (∃ band, g.SUM_BAND = some band ∧ ¬(band.1 ≤ t.sum ∧ t.sum ≤ band.2)) := by
    cases g.SUM_BAND with
    | none => simp
    | some band =>
      rw [Bool.and_eq_false_iff]
      simp only [decide_eq_false_iff_not, hsum, Option.some.injEq]
      constructor
      · rintro (h | h) <;> exact ⟨band, rfl, by omega⟩
      · rintro ⟨b2, hb2, hno⟩
        subst hb2
        omega
  have h2 : ((!(decide (((sortInt t).countP (fun x => 31 < x) : Int) < g.MIN_OVER_31))) = false)
      ↔ (t.countP (fun x => 31 < x) : Int) < g.MIN_OVER_31 := by
    simp [hcount]
  have h3 : ((!(decide (0 < g.MIN_HIGH)
        && decide (((sortInt t).countP (fun x => 41 ≤ x) : Int) < g.MIN_HIGH))) = false)
      ↔ (t.countP (fun x => 41 ≤ x) : Int) < g.MIN_HIGH := by
    rw [Bool.not_eq_eq_eq_not, Bool.not_false, Bool.and_eq_true]
    simp only [decide_eq_true_eq, hcount]
    constructor
    · rintro ⟨_, h⟩; exact h
    · intro h
      refine ⟨?_, h⟩
      omega
  have h4 : ((decide (g.ODD_RANGE.1 ≤ ((sortInt t).countP (fun x => x % 2 == 1) : Int)) = false)
      ∨ (decide (((sortInt t).countP (fun x => x % 2 == 1) : Int) ≤ g.ODD_RANGE.2) = false))
      ↔ ¬(g.ODD_RANGE.1 ≤ (t.countP (fun x => x % 2 == 1) : Int)
          ∧ (t.countP (fun x => x % 2 == 1) : Int) ≤ g.ODD_RANGE.2) := by
    simp only [decide_eq_false_iff_not, hcount]
    omega
  have h5 : ((!((decCountsList (sortInt t)).any
        (fun c => decide (g.MAX_SAME_DECENIO_ < (c : Int))))) = false)
      ↔ (∃ x ∈ t, g.MAX_SAME_DECENIO_ < (t.countP (fun y => decenio_ y == decenio_ x) : Int)) := by
    rw [Bool.not_eq_eq_eq_not, Bool.not_false, decCountsList,
      counts_any_iff (sortInt t) (fun x => decenio_ x) g.MAX_SAME_DECENIO_]
    simp only [hcount]
    constructor
    · rintro ⟨x, hx, h⟩; exact ⟨x, hperm.mem_iff.1 hx, h⟩
    · rintro ⟨x, hx, h⟩; exact ⟨x, hperm.mem_iff.2 hx, h⟩
  have h6e : ((!((endCountsList (sortInt t)).any
        (fun c => decide (g.MAX_SAME_ENDING < (c : Int))))) = false)
      ↔ (∃ x ∈ t, g.MAX_SAME_ENDING < (t.countP (fun y => y % 10 == x % 10) : Int)) := by
    rw [Bool.not_eq_eq_eq_not, Bool.not_false, endCountsList,
      counts_any_iff (sortInt t) (fun x => x % 10) g.MAX_SAME_ENDING]
    simp only [hcount]
    constructor
    · rintro ⟨x, hx, h⟩; exact ⟨x, hperm.mem_iff.1 hx, h⟩
    · rintro ⟨x, hx, h⟩; exact ⟨x, hperm.mem_iff.2 hx, h⟩
  have h7 : ((!(decide (g.MAX_MULT_5 < ((sortInt t).countP (fun x => x % 5 == 0) : Int)))) = false)
      ↔ g.MAX_MULT_5 < (t.countP (fun x => x % 5 == 0) : Int) := by
    simp [hcount]
  have h8 : ((!(hasLongSequence (sortInt t) 3)) = false)
      ↔ (∃ x : Int, x ∈ t ∧ x + 1 ∈ t ∧ x + 2 ∈ t) := by
    rw [Bool.not_eq_eq_eq_not, Bool.not_false, hasLongSequence_mem_iff (sortInt t) hndt]
    constructor
    · rintro ⟨x, hx, hx1, hx2⟩
      exact ⟨x, hperm.mem_iff.1 hx, hperm.mem_iff.1 hx1, hperm.mem_iff.1 hx2⟩
    · rintro ⟨x, hx, hx1, hx2⟩
      exact ⟨x, hperm.mem_iff.2 hx, hperm.mem_iff.2 hx1, hperm.mem_iff.2 hx2⟩
  rw [ticketOk, specRejects]
  simp only [Bool.and_eq_false_iff]
  rw [h1, h2, h3, h4, h5, h6e, h7, h8]
  simp only [or_assoc]

theorem claim_C4_witness :
    (([2,14,26,38,45,57] : List Int).Nodup ∧ ([2,14,26,38,45,57] : List Int).length = 6)
    ∧ (ticketOk gPool1 [2,14,26,38,45,57] = false ↔ specRejects gPool1 [2,14,26,38,45,57]) :=
  ⟨⟨by decide, by decide⟩,
    claim_C4_validator_iff gPool1 [2,14,26,38,45,57] (by decide) (by decide) (by decide)⟩

/-- Claim C3 counterexample: a balanced run (`n_games = 2`, `2 * 6 ≤ 60`)
over a single-candidate pool returns a FULL-length batch in which the number
2 (indeed every member) appears twice: the per-number exposure cap of 1 is
breached silently, with no shortfall `len(batch) < n_games` to observe. -/
theorem claim_C3_counterexample :
    (selectedBatch gPool1 2 true).1.length = 2
    ∧ countIn (selectedBatch gPool1 2 true).1 2 = 2 := by
  constructor <;> decide

/-- Claim C8 counterexample: with `candidates_per_pick = 0` the per-slot
window is empty, so even with a non-empty candidate pool `generate` returns
an empty batch instead of `n_games = 1` tickets. -/
theorem claim_C8_counterexample :
    (buildPool gCpp0).1 ≠ [] ∧ (generate gCpp0 1 false).length = 0 := by
  constructor <;> decide

/-! ### Selection-loop lemmas (claims C3 and C8) -/

theorem pickBest_foldl_mem (f : List Int → ℚ) (pred : List Int → Bool) :
    ∀ (l : List (List Int)) (acc : Option (List Int) × ℚ) (b : List Int),
      (l.foldl (fun acc t =>
        if pred t then (if acc.2 < f t then (some t, f t) else acc) else acc) acc).1 = some b →
      acc.1 = some b ∨ b ∈ l
  | [], acc, b, h => Or.inl h
  | t :: l, acc, b, h => by
    rw [List.foldl_cons] at h
    rcases pickBest_foldl_mem f pred l _ b h with h1 | h1
    · by_cases hp : pred t = true
      · rw [if_pos hp] at h1
        by_cases hs : acc.2 < f t
        · rw [if_pos hs] at h1
          exact Or.inr (by rw [← Option.some_inj.1 h1]; exact List.mem_cons_self _ _)
        · rw [if_neg hs] at h1
          exact Or.inl h1
      · rw [if_neg hp] at h1
        exact Or.inl h1
    · exact Or.inr (List.mem_cons_of_mem _ h1)

theorem pickBest_mem (f : List Int → ℚ) (pred : List Int → Bool) (l : List (List Int))
    (b : List Int) (h : (pickBest f pred l).1 = some b) : b ∈ l := by
  rcases pickBest_foldl_mem f pred l _ b h with h1 | h1
  · cases h1
  · exact h1

theorem pickBest_foldl_pred (f : List Int → ℚ) (pred : List Int → Bool) :
    ∀ (l : List (List Int)) (acc : Option (List Int) × ℚ) (b : List Int),
      (l.foldl (fun acc t =>
        if pred t then (if acc.2 < f t then (some t, f t) else acc) else acc) acc).1 = some b →
      acc.1 = some b ∨ pred b = true
  | [], acc, b, h => Or.inl h
  | t :: l, acc, b, h => by
    rw [List.foldl_cons] at h
    rcases pickBest_foldl_pred f pred l _ b h with h1 | h1
    · by_cases hp : pred t = true
      · rw [if_pos hp] at h1
        by_cases hs : acc.2 < f t
        · rw [if_pos hs] at h1
          exact Or.inr (by rw [← Option.some_inj.1 h1]; exact hp)
        · rw [if_neg hs] at h1
          exact Or.inl h1
      · rw [if_neg hp] at h1
        exact Or.inl h1
    · exact Or.inr h1

theorem pickBest_pred (f : List Int → ℚ) (pred : List Int → Bool) (l : List (List Int))
    (b : List Int) (h : (pickBest f pred l).1 = some b) : pred b = true := by
  rcases pickBest_foldl_pred f pred l _ b h with h1 | h1
  · cases h1
  · exact h1

theorem pickBest_foldl_isSome (f : List Int → ℚ) (pred : List Int → Bool) :
    ∀ (l : List (List Int)) (acc : Option (List Int) × ℚ),
      (acc.1 = none → acc.2 = -(10 ^ 18 : ℚ)) →
      (acc.1.isSome ∨ ∃ t ∈ l, pred t = true ∧ -(10 ^ 18 : ℚ) < f t) →
      (l.foldl (fun acc t =>
        if pred t then (if acc.2 < f t then (some t, f t) else acc) else acc) acc).1.isSome
  | [], acc, hbase, h => by
    rcases h with h | ⟨t, ht, _⟩
    · exact h
    · cases ht
  | t :: l, acc, hbase, h => by
    rw [List.foldl_cons]
    by_cases hp : pred t = true
    · rw [if_pos hp]
      by_cases hs : acc.2 < f t
      · rw [if_pos hs]
        apply pickBest_foldl_isSome f pred l _ (by intro h2; cases h2)
        exact Or.inl rfl
      · rw [if_neg hs]
        apply pickBest_foldl_isSome f pred l acc hbase
        rcases h with h | ⟨u, hu, hup, huf⟩
        · exact Or.inl h
        · rcases List.mem_cons.1 hu with h1 | h1
          · subst h1
            cases hacc : acc.1 with
            | some b => exact Or.inl (by simp [hacc])
            | none =>
              exfalso
              rw [hbase hacc] at hs
              exact hs huf
          · exact Or.inr ⟨u, h1, hup, huf⟩
    · rw [if_neg hp]
      apply pickBest_foldl_isSome f pred l acc hbase
      rcases h with h | ⟨u, hu, hup, huf⟩
      · exact Or.inl h
      · rcases List.mem_cons.1 hu with h1 | h1
        · subst h1
          exact absurd hup hp
        · exact Or.inr ⟨u, h1, hup, huf⟩

theorem pickBest_isSome (f : List Int → ℚ) (pred : List Int → Bool) (l : List (List Int))
    (h : ∃ t ∈ l, pred t = true ∧ -(10 ^ 18 : ℚ) < f t) :
    ∃ b, (pickBest f pred l).1 = some b := by
  have := pickBest_foldl_isSome f pred l (none, -(10 ^ 18 : ℚ)) (fun _ => rfl) (Or.inr h)
  rw [pickBest]
  exact Option.isSome_iff_exists.1 this

theorem exposure_foldl_count :
    ∀ (b : List Int) (e : Int → Nat) (x : Int),
      (b.foldl (fun e x => fun y => if y = x then e y + 1 else e y) e) x
        = e x + b.count x
  | [], e, x => by simp
  | a :: b, e, x => by
    rw [List.foldl_cons, exposure_foldl_count b _ x, List.count_cons]
    by_cases hxa : x = a
    · subst hxa
      simp
      omega
    · have hba : (a == x) = false := beq_eq_false_iff_ne.2 (fun h => hxa h.symm)
      simp [hxa, hba]

theorem pushPick_exposure (st : SelState) (b : List Int) (fb : Bool) (x : Int) :
    (pushPick st b fb).exposure x = st.exposure x + b.count x :=
  exposure_foldl_count b st.exposure x

theorem pushPick_selected (st : SelState) (b : List Int) (fb : Bool) :
    (pushPick st b fb).selected = st.selected ++ [b] := rfl

theorem countIn_append (batch : List (List Int)) (b : List Int) (x : Int) :
    countIn (batch ++ [b]) x = countIn batch x + b.count x := by
  simp [countIn]

theorem mainLoop_step_some (g : GameGenerator) (cands : List (List Int)) (lm : Int)
    (fuel : Nat) (st : SelState) (b : List Int)
    (hce : ¬cands.isEmpty = true)
    (hpick : (pickBest (scoreOf g lm st) (feasibleB st.exposure lm)
        (sampleAux (min g.CANDIDATES_PER_PICK cands.length) st.rng cands).1).1 = some b) :
    mainLoop g cands lm (fuel + 1) st
      = mainLoop g cands lm fuel (pushPick
          { st with rng := (sampleAux (min g.CANDIDATES_PER_PICK cands.length) st.rng cands).2 }
          b false) := by
  rw [mainLoop, if_neg hce]
  simp only [hpick]

theorem mainLoop_step_fallback (g : GameGenerator) (cands : List (List Int)) (lm : Int)
    (fuel : Nat) (st : SelState) (b : List Int)
    (hce : ¬cands.isEmpty = true)
    (hpick : (pickBest (scoreOf g lm st) (feasibleB st.exposure lm)
        (sampleAux (min g.CANDIDATES_PER_PICK cands.length) st.rng cands).1).1 = none)
    (hpick2 : (pickBest (scoreOf g lm st) (fun _ => true)
        (sampleAux (min g.CANDIDATES_PER_PICK cands.length) st.rng cands).1).1 = some b) :
    mainLoop g cands lm (fuel + 1) st
      = mainLoop g cands lm fuel (pushPick
          { st with rng := (sampleAux (min g.CANDIDATES_PER_PICK cands.length) st.rng cands).2 }
          b true) := by
  rw [mainLoop, if_neg hce]
  simp only [hpick, hpick2]

theorem mainLoop_step_none (g : GameGenerator) (cands : List (List Int)) (lm : Int)
    (fuel : Nat) (st : SelState)
    (hce : ¬cands.isEmpty = true)
    (hpick : (pickBest (scoreOf g lm st) (feasibleB st.exposure lm)
        (sampleAux (min g.CANDIDATES_PER_PICK cands.length) st.rng cands).1).1 = none)
    (hpick2 : (pickBest (scoreOf g lm st) (fun _ => true)
        (sampleAux (min g.CANDIDATES_PER_PICK cands.length) st.rng cands).1).1 = none) :
    mainLoop g cands lm (fuel + 1) st
      = { st with rng := (sampleAux (min g.CANDIDATES_PER_PICK cands.length) st.rng cands).2 } := by
  rw [mainLoop, if_neg hce]
  simp only [hpick, hpick2]

theorem pushPick_usedFallback (st : SelState) (b : List Int) (fb : Bool) :
    (pushPick st b fb).usedFallback = (st.usedFallback || fb) := rfl

theorem mainLoop_flag_mono (g : GameGenerator) (cands : List (List Int)) (lm : Int) :
    ∀ (fuel : Nat) (st : SelState), st.usedFallback = true →
      (mainLoop g cands lm fuel st).usedFallback = true
  | 0, st, h => h
  | fuel + 1, st, h => by
    by_cases hce : cands.isEmpty = true
    · rw [mainLoop, if_pos hce]; exact h
    · cases hpick : (pickBest (scoreOf g lm st) (feasibleB st.exposure lm)
          (sampleAux (min g.CANDIDATES_PER_PICK cands.length) st.rng cands).1).1 with
      | some b =>
        rw [mainLoop_step_some g cands lm fuel st b hce hpick]
        exact mainLoop_flag_mono g cands lm fuel _
          (by rw [pushPick_usedFallback]; simp [h])
      | none =>
        cases hpick2 : (pickBest (scoreOf g lm st) (fun _ => true)
            (sampleAux (min g.CANDIDATES_PER_PICK cands.length) st.rng cands).1).1 with
        | some b =>
          rw [mainLoop_step_fallback g cands lm fuel st b hce hpick hpick2]
          exact mainLoop_flag_mono g cands lm fuel _
            (by rw [pushPick_usedFallback]; simp [h])
        | none =>
          rw [mainLoop_step_none g cands lm fuel st hce hpick hpick2]
          exact h

theorem feasibleB_lt (e : Int → Nat) (lm : Int) (b : List Int)
    (h : feasibleB e lm b = true) : ∀ x ∈ b, (e x : Int) < lm := by
  intro x hx
  rw [feasibleB, List.all_eq_true] at h
  simpa using h x hx

/-- The balanced-cap invariant: if the main loop never resorted to the
fallback pass, exposure counts track the batch and never exceed the local
cap. -/
theorem mainLoop_cap (g : GameGenerator) (cands : List (List Int)) (lm : Int)
    (hnd : ∀ t ∈ cands, t.Nodup) :
    ∀ (fuel : Nat) (st : SelState),
      (∀ x, st.exposure x = countIn st.selected x) →
      (∀ x, (st.exposure x : Int) ≤ lm) →
      (mainLoop g cands lm fuel st).usedFallback = false →
      (∀ x, ((mainLoop g cands lm fuel st).exposure x : Int) ≤ lm)
      ∧ (∀ x, (mainLoop g cands lm fuel st).exposure x
          = countIn (mainLoop g cands lm fuel st).selected x)
  | 0, st, hc, hcap, _ => ⟨hcap, hc⟩
  | fuel + 1, st, hc, hcap, hff => by
    by_cases hce : cands.isEmpty = true
    · rw [mainLoop, if_pos hce] at hff ⊢
      exact ⟨hcap, hc⟩
    · cases hpick : (pickBest (scoreOf g lm st) (feasibleB st.exposure lm)
          (sampleAux (min g.CANDIDATES_PER_PICK cands.length) st.rng cands).1).1 with
      | some b =>
        rw [mainLoop_step_some g cands lm fuel st b hce hpick] at hff ⊢
        have hbmem : b ∈ cands :=
          sampleAux_mem _ _ _ _ (pickBest_mem _ _ _ _ hpick)
        have hbnd : b.Nodup := hnd b hbmem
        have hfeas := feasibleB_lt _ _ _ (pickBest_pred _ _ _ _ hpick)
        apply mainLoop_cap g cands lm hnd fuel _ ?_ ?_ hff
        · intro x
          rw [pushPick_exposure, pushPick_selected, countIn_append, hc x]
        · intro x
          rw [pushPick_exposure]
          by_cases hxb : x ∈ b
          · have h1 : b.count x ≤ 1 := List.nodup_iff_count_le_one.1 hbnd x
            have h2 := hfeas x hxb
            push_cast
            omega
          · rw [List.count_eq_zero_of_not_mem hxb]
            exact hcap x
      | none =>
        cases hpick2 : (pickBest (scoreOf g lm st) (fun _ => true)
            (sampleAux (min g.CANDIDATES_PER_PICK cands.length) st.rng cands).1).1 with
        | some b =>
          rw [mainLoop_step_fallback g cands lm fuel st b hce hpick hpick2] at hff
          exfalso
          have hflag := mainLoop_flag_mono g cands lm fuel
            (pushPick { st with rng := (sampleAux (min g.CANDIDATES_PER_PICK cands.length) st.rng cands).2 } b true)
            (by rw [pushPick_usedFallback]; simp)
          rw [hflag] at hff
          cases hff
        | none =>
          rw [mainLoop_step_none g cands lm fuel st hce hpick hpick2] at hff ⊢
          exact ⟨hcap, hc⟩

/-- Claim C3 (amended): when `balanced=true` and `n_games * 6 ≤ 60`, the
exposure cap of 1 holds for every number — no number appears in more than
one ticket — PROVIDED no selection round fell back to the
exposure-ignoring second pass and the main loop filled all `n_games`
slots.  When the pool is too constrained the code instead silently relaxes
the cap and can return a full-length breaching batch (see the
counterexample), so the violation is not observable via
`len(batch) < n_games`. -/
theorem claim_C3_exposure_cap (g : GameGenerator) (n : Nat)
    (hle : n * 6 ≤ NUMBERS.length)
    (hff : (runMain g n true).usedFallback = false)
    (hlen : (runMain g n true).selected.length = n)
    (x : Int) :
    countIn (selectedBatch g n true).1 x ≤ 1 := by
  have hlm : localMaxExp g n true = 1 := by
    rw [localMaxExp, if_pos ⟨rfl, hle⟩]
  have hsel : (selectedBatch g n true).1 = (runMain g n true).selected := by
    show (topUpLoop g (buildPool g).1
        (n - (runMain g n true).selected.length) (runMain g n true)).selected
      = (runMain g n true).selected
    rw [hlen, Nat.sub_self, topUpLoop]
  have hrm : runMain g n true
      = mainLoop g (buildPool g).1 (localMaxExp g n true) n
          ⟨[], [], [], fun _ => 0, (buildPool g).2.1, false⟩ := rfl
  rw [hrm, hlm] at hff
  obtain ⟨hcap, hcnt⟩ := mainLoop_cap g (buildPool g).1 1
    (fun t ht => (buildPool_mem_prop g t ht).2.2.1) n
    ⟨[], [], [], fun _ => 0, (buildPool g).2.1, false⟩
    (fun y => by simp [countIn]) (fun y => by simp) hff
  have h1 := hcap x
  have h2 := hcnt x
  rw [hsel, hrm, hlm, ← h2]
  omega

theorem claim_C3_witness :
    (2 * 6 ≤ NUMBERS.length
      ∧ (runMain gPool2 2 true).usedFallback = false
      ∧ (runMain gPool2 2 true).selected.length = 2)
    ∧ countIn (selectedBatch gPool2 2 true).1 4 ≤ 1 :=
  ⟨⟨by decide, by decide, by decide⟩,
    claim_C3_exposure_cap gPool2 2 (by decide) (by decide) (by decide) 4⟩

theorem jaccard_nonneg (a b : List Int) : 0 ≤ jaccard a b := by
  rw [jaccard]
  split
  · exact le_refl 0
  · exact div_nonneg (Nat.cast_nonneg _) (Nat.cast_nonneg _)

theorem jaccard_le_one (a b : List Int) : jaccard a b ≤ 1 := by
  rw [jaccard]
  split
  · norm_num
  · apply div_le_one_of_le
    · exact_mod_cast Finset.card_le_card
        (Finset.Subset.trans (Finset.inter_subset_left) (Finset.subset_union_left))
    · exact Nat.cast_nonneg _

theorem overlap_le (t : List Int) :
    ∀ sel : List (List Int),
      (sel.map (fun s => jaccard t s)).sum ≤ (sel.length : ℚ)
  | [] => by simp
  | s :: sel => by
    simp only [List.map_cons, List.sum_cons, List.length_cons]
    have h1 := jaccard_le_one t s
    have h2 := overlap_le t sel
    push_cast
    linarith

theorem scoreOf_ge (g : GameGenerator) (lm : Int) (st : SelState) (t : List Int)
    (B : ℚ) (h6 : t.length = 6)
    (hexp : ∀ x, st.exposure x ≤ st.selected.length)
    (hpen : antiPopularityPenalty g t ≤ B) :
    -((43/10) * (st.selected.length : ℚ) + (9/5) * B) ≤ scoreOf g lm st t := by
  rw [scoreOf]
  have hp : (0:ℚ) ≤ (((pairsOf t).countP (fun p => !(decide (p ∈ st.coveredPairs)))) : ℚ) :=
    Nat.cast_nonneg _
  have htr : (0:ℚ) ≤ (((triplesOf t).countP (fun p => !(decide (p ∈ st.coveredTriples)))) : ℚ) :=
    Nat.cast_nonneg _
  have hov := overlap_le t st.selected
  have hden : (1:ℚ) ≤ ((max 1 lm : Int) : ℚ) := by
    have : (1:Int) ≤ max 1 lm := le_max_left _ _
    exact_mod_cast this
  have helem : ∀ q ∈ t.map (fun x => (st.exposure x : ℚ) / ((max 1 lm : Int) : ℚ)),
      q ≤ (st.selected.length : ℚ) := by
    intro q hq
    rcases List.mem_map.1 hq with ⟨x, _, hx⟩
    rw [← hx]
    calc (st.exposure x : ℚ) / ((max 1 lm : Int) : ℚ)
        ≤ (st.exposure x : ℚ) := div_le_self (Nat.cast_nonneg _) hden
      _ ≤ (st.selected.length : ℚ) := by exact_mod_cast hexp x
  have hsum : ((t.map (fun x => (st.exposure x : ℚ) / ((max 1 lm : Int) : ℚ))).sum)
      ≤ 6 * (st.selected.length : ℚ) := by
    have h66 := List.sum_le_card_nsmul
      (t.map (fun x => (st.exposure x : ℚ) / ((max 1 lm : Int) : ℚ)))
      ((st.selected.length : ℚ)) helem
    rw [List.length_map, h6, nsmul_eq_mul] at h66
    have h6c : ((6 : Nat) : ℚ) = 6 := by norm_num
    rw [h6c] at h66
    exact h66
  linarith

theorem mainLoop_fills (g : GameGenerator) (cands : List (List Int)) (lm : Int)
    (B : ℚ) (n : Nat)
    (hcands : cands ≠ [])
    (hcpp : 1 ≤ g.CANDIDATES_PER_PICK)
    (hprop : ∀ t ∈ cands, t.length = 6 ∧ t.Nodup ∧ antiPopularityPenalty g t ≤ B)
    (hbound : (43/10) * (n : ℚ) + (9/5) * B ≤ 10 ^ 18) :
    ∀ (fuel : Nat) (st : SelState),
      st.selected.length + fuel ≤ n →
      (∀ x, st.exposure x ≤ st.selected.length) →
      (mainLoop g cands lm fuel st).selected.length = st.selected.length + fuel
  | 0, st, _, _ => by rw [mainLoop]; omega
  | fuel + 1, st, hlen, hexp => by
    have hce : ¬cands.isEmpty = true := by
      simpa [List.isEmpty_iff] using hcands
    have hlc : 1 ≤ cands.length := List.length_pos.2 hcands
    have hps : 1 ≤ min g.CANDIDATES_PER_PICK cands.length := Nat.le_min.2 ⟨hcpp, hlc⟩
    have hwinlen : (sampleAux (min g.CANDIDATES_PER_PICK cands.length) st.rng cands).1.length
        = min g.CANDIDATES_PER_PICK cands.length := by
      rw [sampleAux_length]
      have : min g.CANDIDATES_PER_PICK cands.length ≤ cands.length := Nat.min_le_right _ _
      omega
    have hwne : (sampleAux (min g.CANDIDATES_PER_PICK cands.length) st.rng cands).1 ≠ [] := by
      intro h
      rw [h] at hwinlen
      simp at hwinlen
      omega
    obtain ⟨t0, ht0⟩ := List.exists_mem_of_ne_nil _ hwne
    have ht0c : t0 ∈ cands := sampleAux_mem _ _ _ _ ht0
    have hscore : -(10 ^ 18 : ℚ) < scoreOf g lm st t0 := by
      have h1 := scoreOf_ge g lm st t0 B (hprop t0 ht0c).1 hexp (hprop t0 ht0c).2.2
      have hk : (st.selected.length : ℚ) ≤ (n : ℚ) - 1 := by
        have h2 : st.selected.length + 1 ≤ n := by omega
        have h3 : ((st.selected.length + 1 : Nat) : ℚ) ≤ (n : ℚ) := Nat.cast_le.2 h2
        push_cast at h3
        linarith
      nlinarith
    have hpushlen : ∀ (b : List Int) (fb : Bool),
        (pushPick { st with
          rng := (sampleAux (min g.CANDIDATES_PER_PICK cands.length) st.rng cands).2 } b fb).selected.length
        = st.selected.length + 1 := by
      intro b fb
      rw [pushPick_selected]
      simp
    have hpushexp : ∀ (b : List Int), b ∈ cands → ∀ x : Int,
        (pushPick { st with
          rng := (sampleAux (min g.CANDIDATES_PER_PICK cands.length) st.rng cands).2 } b false).exposure x
          ≤ st.selected.length + 1
        ∧ (pushPick { st with
          rng := (sampleAux (min g.CANDIDATES_PER_PICK cands.length) st.rng cands).2 } b true).exposure x
          ≤ st.selected.length + 1 := by
      intro b hb x
      have hnd : b.Nodup := (hprop b hb).2.1
      have hcnt : b.count x ≤ 1 := List.nodup_iff_count_le_one.1 hnd x
      constructor <;>
        (rw [pushPick_exposure]; have := hexp x; simp only []; omega)
    cases hpick : (pickBest (scoreOf g lm st) (feasibleB st.exposure lm)
        (sampleAux (min g.CANDIDATES_PER_PICK cands.length) st.rng cands).1).1 with
    | some b =>
      rw [mainLoop_step_some g cands lm fuel st b hce hpick]
      have hbmem : b ∈ cands := sampleAux_mem _ _ _ _ (pickBest_mem _ _ _ _ hpick)
      have hrec := mainLoop_fills g cands lm B n hcands hcpp hprop hbound fuel
        (pushPick { st with
          rng := (sampleAux (min g.CANDIDATES_PER_PICK cands.length) st.rng cands).2 } b false)
        (by rw [hpushlen]; omega)
        (fun x => by rw [hpushlen]; exact (hpushexp b hbmem x).1)
      rw [hrec, hpushlen]
      omega
    | none =>
      obtain ⟨b, hpick2⟩ := pickBest_isSome (scoreOf g lm st) (fun _ => true)
        (sampleAux (min g.CANDIDATES_PER_PICK cands.length) st.rng cands).1
        ⟨t0, ht0, rfl, hscore⟩
      rw [mainLoop_step_fallback g cands lm fuel st b hce hpick hpick2]
      have hbmem : b ∈ cands := sampleAux_mem _ _ _ _ (pickBest_mem _ _ _ _ hpick2)
      have hrec := mainLoop_fills g cands lm B n hcands hcpp hprop hbound fuel
        (pushPick { st with
          rng := (sampleAux (min g.CANDIDATES_PER_PICK cands.length) st.rng cands).2 } b true)
        (by rw [hpushlen]; omega)
        (fun x => by rw [hpushlen]; exact (hpushexp b hbmem x).2)
      rw [hrec, hpushlen]
      omega

/-- Claim C8 (amended): whenever the candidate pool is non-empty, the
per-pick window is non-empty (`candidates_per_pick ≥ 1`), and the scores
stay strictly above the `-1e18` sentinel (guaranteed here by the linear
bound on `n_games` and on the penalties over the pool), `generate` returns a batch
of exactly `n_games` tickets — the main loop fills every slot, selected
tickets are never removed from the pool, and no top-up is needed.  Without
these provisos the batch can fall short even with a non-empty pool (see the
counterexample with `candidates_per_pick = 0`). -/
theorem claim_C8_full_batch (g : GameGenerator) (n : Nat) (balanced : Bool) (B : ℚ)
    (hcpp : 1 ≤ g.CANDIDATES_PER_PICK)
    (hpool : (buildPool g).1 ≠ [])
    (hB : ∀ t ∈ (buildPool g).1, antiPopularityPenalty g t ≤ B)
    (hbound : (43/10) * (n : ℚ) + (9/5) * B ≤ 10 ^ 18) :
    (generate g n balanced).length = n := by
  have hprop : ∀ t ∈ (buildPool g).1,
      t.length = 6 ∧ t.Nodup ∧ antiPopularityPenalty g t ≤ B := by
    intro t ht
    obtain ⟨_, _, hnd, hsix, _⟩ := buildPool_mem_prop g t ht
    exact ⟨hsix, hnd, hB t ht⟩
  have hrm : runMain g n balanced
      = mainLoop g (buildPool g).1 (localMaxExp g n balanced) n
          ⟨[], [], [], fun _ => 0, (buildPool g).2.1, false⟩ := rfl
  have hmain : (runMain g n balanced).selected.length = n := by
    rw [hrm, mainLoop_fills g (buildPool g).1 (localMaxExp g n balanced) B n hpool hcpp
      hprop hbound n ⟨[], [], [], fun _ => 0, (buildPool g).2.1, false⟩ (by simp) (by simp)]
    simp
  have hsel : (selectedBatch g n balanced).1 = (runMain g n balanced).selected := by
    show (topUpLoop g (buildPool g).1
        (n - (runMain g n balanced).selected.length) (runMain g n balanced)).selected
      = (runMain g n balanced).selected
    rw [hmain, Nat.sub_self, topUpLoop]
  have hlen2 : (selectedBatch g n balanced).1.length = n := by rw [hsel, hmain]
  rw [generate]
  by_cases hd : g.DISPLAY_SHUFFLE = true
  · simp only [if_pos hd]
    rw [(shuffleAll_forall2 (selectedBatch g n balanced).2
      (selectedBatch g n balanced).1).length_eq]
    exact hlen2
  · simp only [if_neg hd, List.length_map]
    exact hlen2

theorem claim_C8_witness :
    (1 ≤ gPool2.CANDIDATES_PER_PICK ∧ (buildPool gPool2).1 ≠ []
      ∧ (43/10) * ((2:Nat) : ℚ) + (9/5) * 1 ≤ 10 ^ 18)
    ∧ (generate gPool2 2 false).length = 2 :=
  ⟨⟨by decide, by decide, by norm_num⟩,
    claim_C8_full_batch gPool2 2 false 1 (by decide) (by decide) (by decide) (by norm_num)⟩
